import Mathlib

/-!
Verification development for the `make_scaler` / `lp_diag_fast` core of the
repository: the MPS problem-file reader (`tools/lp_diag/lp_diag_fast.py`), the
iterative matrix-scaling engine and GAMS statement emitter
(`tools/make_scaler/scaler_optim.py`, `tools/make_scaler/scaler.py`,
`tools/make_scaler/parallel.py`), and the quote-normalising text transforms.

Modelling conventions.
* Python strings are modelled as Lean `String` / `List Char`.
* IEEE-754 doubles are modelled as exact rationals `ℚ`; `np.log10` over the
  reals is never materialised: every use in the pipeline (outlier filtering,
  per-group min/max followed by integer truncation) is represented exactly
  through the strictly monotone bijection `log10` (see `magKey`,
  `truncLog10`).  The one claim about the log transform itself is stated over
  `ℝ`/`EReal`.
* pandas DataFrames keyed by (row, col) with a `val` column are modelled as
  `List Entry`; per-axis scaler tables (DataFrames indexed by the axis labels)
  are association lists `List (String × ℚ)`.
* File I/O is modelled by its observable content: the MPS reader consumes the
  list of (newline-terminated) lines of the file, and the emitter's output
  file is the newline-join of its statement lines.
-/

namespace MakeScaler

/-- One sparse-matrix entry of the logical matrix view: row name, column name
and coefficient value (a cell of the MultiIndex (row, col) DataFrame with one
`val` column produced by `read_matrix`). -/
structure Entry where
  row : String
  col : String
  val : ℚ
deriving DecidableEq, Repr

/-- The two axes of the matrix, i.e. the two keys `"row"` / `"col"` of the
`scalers` dict in `make_scaler`. -/
inductive Axis where
  | row
  | col
deriving DecidableEq, Repr

/-- `get_lvl_ix(data, s)` on one entry: the label of the entry on axis `s`. -/
def Entry.label (s : Axis) (e : Entry) : String :=
  match s with
  | .row => e.row
  | .col => e.col

/-- `objective_ix = "_obj" if s == "row" else "constobj"`
(scaler_optim.py line 84): the reserved sentinel label on each axis that is
never scaled. -/
def objectiveIx (s : Axis) : String :=
  match s with
  | .row => "_obj"
  | .col => "constobj"

/-- The `bounds` argument of `make_scaler` / `filter_df`: either a single
integer `b` (then the bounds are `[-b, b]`) or an explicit `[lower, upper]`
pair (`optimized_filter_df`, scaler_optim.py lines 26-35). -/
inductive Bounds where
  | int (b : ℤ)
  | pair (lo up : ℤ)
deriving DecidableEq, Repr

/-- The `(lo_bound, up_bound)` pair extracted from the `bounds` argument by
`optimized_filter_df`: `isinstance(bounds, int)` gives `(-b, b)`, otherwise
the pair is unpacked as given. -/
def boundsPair : Bounds → ℤ × ℤ
  | .int b => (-b, b)
  | .pair lo up => (lo, up)

/-- Comparison key for magnitudes: `magKey v = 10 ^ (magnitude of v)` where the
magnitude (`optimized_make_logdf`) of a nonzero value is `log10 |v|` and the
magnitude of `0` is `0` (so its key is `10 ^ 0 = 1`).  Because `log10` is a
strictly monotone bijection from positive rationals onto the reals, every
comparison and min/max aggregation the pipeline performs on magnitudes is
performed exactly on these keys instead (`magnitude u ≤ magnitude v ↔
magKey u ≤ magKey v`), which keeps the embedding exact and executable. -/
def magKey (v : ℚ) : ℚ := if v = 0 then 1 else |v|

/-- The outlier test of `optimized_filter_df` applied to one entry of the log
DataFrame: `log_val <= lo_bound or log_val >= up_bound`, expressed exactly on
the raw value via `magKey` (`log10 (magKey v) ≤ lo ↔ magKey v ≤ 10 ^ lo`). -/
def isOutlier (bounds : Bounds) (v : ℚ) : Prop :=
  magKey v ≤ (10 : ℚ) ^ (boundsPair bounds).1 ∨
    (10 : ℚ) ^ (boundsPair bounds).2 ≤ magKey v

instance (bounds : Bounds) (v : ℚ) : Decidable (isOutlier bounds v) := by
  unfold isOutlier; infer_instance

/-- `optimized_filter_df` (scaler_optim.py lines 26-35) on the log DataFrame:
keep exactly the entries with `val <= lo_bound or val >= up_bound` (both
comparisons inclusive), where the bounds come from `boundsPair`. -/
def optimized_filter_df (data : List Entry) (bounds : Bounds) : List Entry :=
  data.filter fun e =>
    decide (e.val ≤ ((boundsPair bounds).1 : ℚ)) ||
      decide (((boundsPair bounds).2 : ℚ) ≤ e.val)

/-- `log10Fuel fuel n` computes, for `n ≥ 1` and `fuel ≥ n`, the greatest `k`
with `10 ^ k ≤ n` by repeated division; the explicit fuel keeps the
recursion structural (kernel-reducible). -/
def log10Fuel : ℕ → ℕ → ℕ
  | 0, _ => 0
  | f + 1, n => if 10 ≤ n then log10Fuel f (n / 10) + 1 else 0

/-- Greatest `k` with `10 ^ k ≤ n`, for `n ≥ 1`: the floor of `log10 n`. -/
def log10Nat (n : ℕ) : ℕ := log10Fuel n n

/-- Truncation toward zero of `log10 q` for a positive rational `q`: the exact
value of numpy's `log10` followed by `.astype(int)` (C truncation) that
`make_scaler` applies to the per-group min/max magnitudes.  For `q ≥ 1`,
`int (log10 q) = ⌊log10 q⌋` = greatest `k` with `10 ^ k ≤ ⌊q⌋`; for
`0 < q < 1`, `int (log10 q) = ⌈log10 q⌉ = -⌊log10 q⁻¹⌋`. -/
def truncLog10 (q : ℚ) : ℤ :=
  if 1 ≤ q then (log10Nat ⌊q⌋₊ : ℤ) else -(log10Nat ⌊q⁻¹⌋₊ : ℤ)

/-- Truncation toward zero of `n / 2`, the exact value of
`((min + max) / 2).astype(int)` on integer min/max (scaler_optim.py line 92). -/
def tdiv2 (n : ℤ) : ℤ := n.sign * ((n.natAbs / 2 : ℕ) : ℤ)

/-- `return_index = list(set(get_lvl_ix(log_absmatrix, s)))` (scaler_optim.py
line 99): the distinct labels of axis `s`, in first-occurrence order (the
embedding fixes this order; only its member set is ever observable). -/
def returnIndex (m : List Entry) (s : Axis) : List String :=
  (m.map (Entry.label s)).dedup

/-- `levels_solv` (scaler_optim.py lines 85-87): the axis-`s` labels of the
outlier entries of the log DataFrame, with the objective sentinel label
removed. -/
def levelsSolv (m : List Entry) (s : Axis) (bounds : Bounds) : List String :=
  ((m.filter fun e => decide (isOutlier bounds e.val)).map (Entry.label s)).filter
    fun lvl => decide (lvl ≠ objectiveIx s)

/-- The magnitude comparison keys of all entries sharing label `lvl` on axis
`s`: the group of `log_absmatrix["val"].groupby(level=s)` for that label
(all entries of the label, not just the outliers). -/
def groupKeys (m : List Entry) (s : Axis) (lvl : String) : List ℚ :=
  (m.filter fun e => decide (Entry.label s e = lvl)).map fun e => magKey e.val

/-- Minimum of a list of rationals (groups are nonempty; the default `1` is
never reached on a label of `returnIndex`). -/
def listMin : List ℚ → ℚ
  | [] => 1
  | x :: xs => xs.foldl min x

/-- Maximum of a list of rationals (same remark as `listMin`). -/
def listMax : List ℚ → ℚ
  | [] => 1
  | x :: xs => xs.foldl max x

/-- `mids` for one label (scaler_optim.py lines 90-92): group min and max of
the magnitudes, each truncated to int, then the truncated midpoint. -/
def midExp (m : List Entry) (s : Axis) (lvl : String) : ℤ :=
  tdiv2 (truncLog10 (listMin (groupKeys m s lvl)) +
    truncLog10 (listMax (groupKeys m s lvl)))

/-- `exps = mids if s == "row" else -mids` (scaler_optim.py line 93): row
exponents are the midpoints, column exponents their negation. -/
def axisExp (s : Axis) (mid : ℤ) : ℤ :=
  match s with
  | .row => mid
  | .col => -mid

/-- The per-iteration scale-factor table for axis `s` as a function of the
current matrix: `step_scaler` reindexed on `return_index` with `fillna(1)`
(scaler_optim.py lines 89-106).  A label in `levels_solv` receives
`10.0 ** exps`; every other label of the axis receives `1`.  When
`levels_solv` is empty this is the all-ones table (the `SFs = {}` branch). -/
def stepScalerList (m : List Entry) (s : Axis) (bounds : Bounds) :
    List (String × ℚ) :=
  (returnIndex m s).map fun lvl =>
    (lvl, if lvl ∈ levelsSolv m s bounds
      then (10 : ℚ) ^ axisExp s (midExp m s lvl) else 1)

/-- Value of a scaler table at a label, defaulting to `1` (the `fillna(1)` /
missing-label behaviour of the pandas alignment). -/
def lookupD (tbl : List (String × ℚ)) (k : String) : ℚ :=
  (tbl.lookup k).getD 1

/-- `matrix = matrix.div(step_scaler) if s == "row" else
matrix.mul(step_scaler)` (scaler_optim.py line 109): divide every entry by its
row's factor, or multiply it by its column's factor. -/
def applyStep (m : List Entry) (s : Axis) (tbl : List (String × ℚ)) :
    List Entry :=
  m.map fun e =>
    match s with
    | .row => { e with val := e.val / lookupD tbl e.row }
    | .col => { e with val := e.val * lookupD tbl e.col }

/-- `scalers[s] = step_scaler.mul(multiplier)` with
`multiplier = 1 if counter == 0 else scalers[s].reindex(return_index).fillna(1)`
(scaler_optim.py lines 100-108): the cumulative scaler table after this
iteration. -/
def cumScaler (prev : List (String × ℚ)) (step : List (String × ℚ))
    (counter : ℕ) : List (String × ℚ) :=
  if counter = 0 then step
  else step.map fun p => (p.1, p.2 * lookupD prev p.1)

/-- One per-axis scaling step (`_process_scaling_step_parallel`,
parallel.py lines 110-162, equal to the inlined loop body of the optimized
`make_scaler`, scaler_optim.py lines 80-109): returns the mutated matrix and
the updated cumulative scaler table for axis `s`. -/
def processScalingStep (m : List Entry) (prev : List (String × ℚ)) (s : Axis)
    (bounds : Bounds) (counter : ℕ) : List Entry × List (String × ℚ) :=
  let step := stepScalerList m s bounds
  (applyStep m s step, cumScaler prev step counter)

/-- The state threaded through the scaling iterations: the matrix and the two
cumulative scaler tables (`scalers["row"]`, `scalers["col"]`). -/
structure ScalerState where
  matrix : List Entry
  rowScaler : List (String × ℚ)
  colScaler : List (String × ℚ)
deriving DecidableEq, Repr

/-- One sequential scaling iteration (`for s in scalers.keys(): ...`,
scaler_optim.py lines 80-109): the row-axis step on the current matrix, then
the column-axis step on the row-scaled matrix. -/
def seqScalingIteration (st : ScalerState) (bounds : Bounds) (counter : ℕ) :
    ScalerState :=
  let rowRes := processScalingStep st.matrix st.rowScaler .row bounds counter
  let colRes := processScalingStep rowRes.1 st.colScaler .col bounds counter
  ⟨colRes.1, rowRes.2, colRes.2⟩

/-- `_parallel_scaling_operations` (parallel.py lines 79-107): both axis steps
are submitted with the *same* input matrix snapshot; the collection loop then
executes `matrix = future.result()` first for the row future and next for the
column future, so the returned matrix is the column future's result (computed
from the unscaled snapshot) and the row future's matrix is discarded.  The
two futures write `scalers["row"]` and `scalers["col"]` respectively. -/
def parallelScalingOperations (st : ScalerState) (bounds : Bounds)
    (counter : ℕ) : ScalerState :=
  let rowRes := processScalingStep st.matrix st.rowScaler .row bounds counter
  let colRes := processScalingStep st.matrix st.colScaler .col bounds counter
  ⟨colRes.1, rowRes.2, colRes.2⟩

/-- A two-entry concrete matrix (one column `c`, rows `r1`, `r2`, values
`10^4` and `1`) on which the parallel and sequential iterations disagree with
bounds 2. -/
def cexMatrix : List Entry := [⟨"r1", "c", 10000⟩, ⟨"r2", "c", 1⟩]

/-- `cexMatrix` after its row-axis scaling step with bounds 2 (row `r1` is
divided by `10^4`). -/
def cexMatrixRowScaled : List Entry := [⟨"r1", "c", 1⟩, ⟨"r2", "c", 1⟩]

/-- The single-quote character (spelled by code point to keep literals
unambiguous). -/
def quoteChar : Char := Char.ofNat 39

/-- Python `str.strip()`: remove leading and trailing whitespace. -/
def pyStrip (l : List Char) : List Char :=
  ((l.dropWhile Char.isWhitespace).reverse.dropWhile Char.isWhitespace).reverse

/-- Python `p.startswith("'")`. -/
def startsWithQuote : List Char → Bool
  | [] => false
  | c :: _ => c = quoteChar

/-- Python `p.endswith("'")`. -/
def endsWithQuote (l : List Char) : Bool := startsWithQuote l.reverse

/-- The emitter's per-parameter quoting rule (scaler.py lines 106-114, also
scaler_optim.py lines 131-138 and parallel.py lines 296-302):
`p = p.strip()`, then pass `p` through unchanged if it already starts and ends
with a single quote, else surround it with one leading and one trailing
single quote. -/
def quoteParam (p : List Char) : List Char :=
  let q := pyStrip p
  if startsWithQuote q && endsWithQuote q then q
  else quoteChar :: (q ++ [quoteChar])

/-- Python `s.split(",")`: split at every comma; the empty string yields
`[""]` and adjacent commas yield empty fields. -/
def splitComma : List Char → List (List Char)
  | [] => [[]]
  | c :: rest =>
    if c = ',' then [] :: splitComma rest
    else
      match splitComma rest with
      | g :: gs => (c :: g) :: gs
      | [] => [[c]]

/-- Statement-key construction for one axis label (scaler.py lines 94-119,
identical in scaler_optim.py lines 118-143 and parallel.py lines 286-305):
the two sentinel labels map to fixed literals; a label containing `(` and `)`
is split at its first `(` and first `)` into a constraint name and
comma-separated parameters, each parameter is quoted by `quoteParam`, and the
key is reassembled as `NAME.scale('p1','p2')`; any other label gets the plain
suffix `.scale`. -/
def keyOf (k : String) : String :=
  if k = "_obj" then "_obj.scale"
  else if k = "constobj" then "constobj.scale"
  else if k.data.contains '(' && k.data.contains ')' then
    let d := k.data
    let i := d.findIdx fun c => c = '('
    let j := d.findIdx fun c => c = ')'
    let constraintName := d.take i
    let params := splitComma ((d.drop (i + 1)).take (j - (i + 1)))
    String.mk (constraintName ++ (".scale(".data ++
      (List.intercalate [','] (params.map quoteParam) ++ [')'])))
  else k ++ ".scale"

/-- The `for k, v in df_scaler["val"].to_dict().items()` emission loop for one
axis (scaler.py lines 92-121): keep the labels whose cumulative factor is not
exactly `1` (`df_scaler.loc[df_scaler["val"] != 1]`) and emit `(keyOf k, v)`
for each. -/
def emitAxisEntries (scaler : List (String × ℚ)) : List (String × ℚ) :=
  (scaler.filter fun p => decide (p.2 ≠ 1)).map fun p => (keyOf p.1, p.2)

/-- The full `scaler_dict` contents of `_make_scaler_standard` (scaler.py
lines 91-124) as an ordered list: the row-axis entries, the column-axis
entries, then the fixed control entry `scaler_dict["MESSAGE_LP.scaleopt"] = 1`
appended last. -/
def scalerEntriesStandard (rowScaler colScaler : List (String × ℚ)) :
    List (String × ℚ) :=
  emitAxisEntries rowScaler ++ emitAxisEntries colScaler ++
    [("MESSAGE_LP.scaleopt", 1)]

/-- The same `scaler_dict` construction as duplicated in
`make_scaler_parallel` (parallel.py lines 283-309). -/
def scalerEntriesParallel (rowScaler colScaler : List (String × ℚ)) :
    List (String × ℚ) :=
  emitAxisEntries rowScaler ++ emitAxisEntries colScaler ++
    [("MESSAGE_LP.scaleopt", 1)]

/-- `scaler_list = [f"{k}={v};" for k, v in scaler_dict.items()]` (scaler.py
line 129 and parallel.py line 314).  `render` models Python's decimal
formatting of the float scale factors; the control entry's value is the
Python int `1`, so its line is the fixed literal `MESSAGE_LP.scaleopt=1;`. -/
def scalerLines (render : ℚ → String) (rowScaler colScaler : List (String × ℚ)) :
    List String :=
  ((emitAxisEntries rowScaler ++ emitAxisEntries colScaler).map fun p =>
    p.1 ++ "=" ++ render p.2 ++ ";") ++ ["MESSAGE_LP.scaleopt=1;"]

/-- `scaler_args_txt = "\n".join(scaler_list)`: the exact content written to
the `MsgScaler_<model>_<scenario>.gms` statement file. -/
def scalerArgsTxt (render : ℚ → String)
    (rowScaler colScaler : List (String × ℚ)) : String :=
  String.intercalate "\n" (scalerLines render rowScaler colScaler)

/-- The `mode` argument of `make_scaler` (scaler.py lines 151-237). -/
inductive ScalerMode where
  | standard
  | parallel
  | auto
deriving DecidableEq, Repr

/-- The two concrete implementations `make_scaler` dispatches to. -/
inductive ScalerImpl where
  | standard
  | parallel
deriving DecidableEq, Repr

/-- The mode dispatch of `make_scaler` (scaler.py lines 198-233):
`"standard"` and `"parallel"` select the respective implementation; `"auto"`
measures the file size in MB and selects `parallel` above 100 MB, else
`standard`. -/
def dispatchMode (mode : ScalerMode) (fileSizeMB : ℚ) : ScalerImpl :=
  match mode with
  | .standard => .standard
  | .parallel => .parallel
  | .auto => if 100 < fileSizeMB then .parallel else .standard

/-- A Python runtime error aborting a run before it returns. -/
inductive PyRunError where
  | unboundLocal (name : String)
deriving DecidableEq, Repr

/-- `HAS_FAST_LP` (parallel.py lines 21-26): whether the fast LP reader
module loaded.  In this repository `lp_diag_fast` is present and loads
cleanly, so the flag is true. -/
def HAS_FAST_LP : Bool := true

/-- The `use_fast_lp` auto-detection of `make_scaler_parallel` (parallel.py
lines 226-229) under the default `use_fast_lp=None`: the fast LP reader is
used iff it is available and the file exceeds 100 MB. -/
def useFastLP (fileSizeMB : ℚ) : Bool :=
  HAS_FAST_LP && decide (100 < fileSizeMB)

/-- Observable outcome of `make_scaler_parallel` (parallel.py lines 174-345):
the statement lines are always written to the output file (step 5, lines
330-331, before the timing breakdown), and then the function either returns
the scaler table, or — when the fast-LP path was taken, so the preprocessing
branch (lines 233-237) that assigns `preprocessing_time` was skipped —
raises `UnboundLocalError` at line 339, where the speedup-breakdown print
reads the never-assigned `preprocessing_time`, and never returns. -/
def make_scaler_parallel_run (fileSizeMB : ℚ) (render : ℚ → String)
    (rowScaler colScaler : List (String × ℚ)) :
    List String × Except PyRunError (List (String × ℚ)) :=
  (scalerLines render rowScaler colScaler,
    if useFastLP fileSizeMB then .error (.unboundLocal "preprocessing_time")
    else .ok (scalerEntriesParallel rowScaler colScaler))

/-- Observable outcome of `_make_scaler_standard` (scaler.py lines 18-148):
the statement lines are written and the scaler table is returned. -/
def make_scaler_standard_run (render : ℚ → String)
    (rowScaler colScaler : List (String × ℚ)) :
    List String × Except PyRunError (List (String × ℚ)) :=
  (scalerLines render rowScaler colScaler,
    .ok (scalerEntriesStandard rowScaler colScaler))

/-- `make_scaler` (scaler.py lines 151-237): the written statement lines and
the returned table (or the aborting runtime error) of the implementation the
mode dispatch selects for the given mode and file size. -/
def make_scaler_run (mode : ScalerMode) (fileSizeMB : ℚ) (render : ℚ → String)
    (rowScaler colScaler : List (String × ℚ)) :
    List String × Except PyRunError (List (String × ℚ)) :=
  match dispatchMode mode fileSizeMB with
  | .standard => make_scaler_standard_run render rowScaler colScaler
  | .parallel => make_scaler_parallel_run fileSizeMB render rowScaler colScaler

end MakeScaler

namespace LPdiagFast

/-- The fatal conditions `LPdiagFast.read_mps` / `mps_sum` can raise:
out-of-order section header, unknown row name in a COLUMNS line, non-numeric
value token (all `ValueError`s carrying the offending line number), missing
`ENDATA` section, undefined objective row (both `AssertionError`s), and the
`ZeroDivisionError` of the density statistic when the matrix has no rows or
no columns. -/
inductive MpsError where
  | outOfOrder (sect : String) (line : ℕ)
  | unknownRow (name : String) (line : ℕ)
  | invalidNumber (tok : String) (line : ℕ)
  | noEndata (lastSection : ℕ)
  | noObjective
  | zeroDensity
deriving DecidableEq, Repr

/-- The mutable state of one `LPdiagFast` parse (lp_diag_fast.py lines 29-61):
section counters, the name→seq dictionaries for rows and columns (modelled as
association lists with the most recent binding in front, matching Python dict
assignment/lookup), the seq→attribute tables in insertion order, the row and
column counters, the objective row seq (`-1` while undefined), and the matrix
triples in appended order (the numpy capacity/doubling mechanism of
`_add_matrix_element` is a memory detail with no observable content beyond
this list). -/
structure MpsState where
  n_section : ℕ
  next_sect : ℕ
  row_name : List (String × ℕ)
  seq_row : List (ℕ × String × String)
  col_name : List (String × ℕ)
  seq_col : List (ℕ × String)
  n_rows : ℕ
  n_cols : ℕ
  gf_seq : ℤ
  mat : List (ℕ × ℕ × ℚ)
  prob_name : String
deriving DecidableEq, Repr

/-- The freshly initialised reader (`__init__`): section index 0, `next_sect`
0, empty tables, `gf_seq = -1`. -/
def initState : MpsState :=
  { n_section := 0, next_sect := 0, row_name := [], seq_row := [],
    col_name := [], seq_col := [], n_rows := 0, n_cols := 0, gf_seq := -1,
    mat := [], prob_name := "" }

/-- The eight canonical section keywords in order (lp_diag_fast.py line 122). -/
def sections : List String :=
  ["NAME", "ROWS", "COLUMNS", "RHS", "RANGES", "BOUNDS", "SOS", "ENDATA"]

/-- `re.split(r"\s+", line.strip())`: the whitespace-separated tokens of the
stripped line; a blank line yields the single empty token `[""]` exactly as
in Python. -/
def pwords (line : String) : List String :=
  let t := MakeScaler.pyStrip line.data
  if t = [] then [""]
  else ((t.splitOnP Char.isWhitespace).filter fun w => decide (w ≠ [])).map
    String.mk

/-- `_process_rows` (lp_diag_fast.py lines 214-231): register the row name
with its kind tag and sequence number; the first row tagged `N` (while
`gf_seq` is still `-1`) becomes the objective row.  Lines with fewer than two
tokens are ignored. -/
def processRows (st : MpsState) (words : List String) : MpsState :=
  if words.length < 2 then st
  else
    { st with
      row_name := (words.getD 1 "", st.n_rows) :: st.row_name,
      seq_row := st.seq_row ++ [(st.n_rows, words.getD 1 "", words.getD 0 "")],
      n_rows := st.n_rows + 1,
      gf_seq := if words.getD 0 "" = "N" ∧ st.gf_seq = -1 then (st.n_rows : ℤ)
        else st.gf_seq }

/-- Column registration of `_process_columns` (lp_diag_fast.py lines
241-248): a new column name gets the next sequence number; an existing one
resolves to its previously assigned number. -/
def registerCol (st : MpsState) (col_nm : String) : MpsState × ℕ :=
  match st.col_name.lookup col_nm with
  | none =>
    ({ st with col_name := (col_nm, st.n_cols) :: st.col_name,
               seq_col := st.seq_col ++ [(st.n_cols, col_nm)],
               n_cols := st.n_cols + 1 }, st.n_cols)
  | some cseq => (st, cseq)

/-- One `(row-name, value)` element of a COLUMNS line (the two symmetric
blocks of `_process_columns`, lp_diag_fast.py lines 250-275): resolve the row
name (`ValueError` with the line number when unknown), convert the value
token (`ValueError` with the line number when non-numeric), and append the
matrix triple. -/
def addPair (pyFloat : String → Option ℚ) (st : MpsState) (n_line : ℕ)
    (row_nm vtok : String) (col_seq : ℕ) : Except MpsError MpsState :=
  match st.row_name.lookup row_nm with
  | none => .error (.unknownRow row_nm n_line)
  | some row_seq =>
    match pyFloat vtok with
    | none => .error (.invalidNumber vtok n_line)
    | some val => .ok { st with mat := st.mat ++ [(row_seq, col_seq, val)] }

/-- `_process_columns` (lp_diag_fast.py lines 233-275), parameterised by
`pyFloat`, the model of Python's `float()` conversion (`none` models the
`ValueError` of a non-numeric token).  Lines with fewer than three tokens are
ignored; the column name is registered on first occurrence; then one
`(row, value)` pair is consumed from tokens 1-2, and a second pair from
tokens 3-4 when the line has at least five tokens.  An unknown row name or a
non-numeric value is a fatal error carrying the line number. -/
def processColumns (pyFloat : String → Option ℚ) (st : MpsState) (n_line : ℕ)
    (words : List String) : Except MpsError MpsState :=
  if words.length < 3 then .ok st
  else
    match addPair pyFloat (registerCol st (words.getD 0 "")).1 n_line
        (words.getD 1 "") (words.getD 2 "")
        (registerCol st (words.getD 0 "")).2 with
    | .error e => .error e
    | .ok st2 =>
      if 5 ≤ words.length then
        addPair pyFloat st2 n_line (words.getD 3 "") (words.getD 4 "")
          (registerCol st (words.getD 0 "")).2
      else .ok st2

/-- The `self._section_handlers[n_section](words, n_line)` dispatch
(lp_diag_fast.py lines 52-61, 189-191): the NAME, SOS and ENDATA handlers are
no-ops, the RHS, RANGES and BOUNDS handlers read and discard their content,
and only the ROWS and COLUMNS handlers build state. -/
def processContent (pyFloat : String → Option ℚ) (st : MpsState) (n_line : ℕ)
    (words : List String) : Except MpsError MpsState :=
  match st.n_section with
  | 1 => .ok (processRows st words)
  | 2 => processColumns pyFloat st n_line words
  | _ => .ok st

/-- The header-recognition test of the main loop (lp_diag_fast.py line 159):
a non-empty, non-comment line whose first character is not a space and whose
first token is a known section keyword is a section header; the recognised
keyword is returned. -/
def headerToken (line : String) : Option String :=
  if line = "" ∨ line.data.headD ' ' = '*' then none
  else if line.data.headD ' ' ≠ ' ' ∧ (pwords line).headD "" ∈ sections then
    some ((pwords line).headD "")
  else none

/-- Processing of one line of the main loop of `read_mps` (lp_diag_fast.py
lines 146-191): empty and comment lines are skipped; a section header is
accepted iff its canonical index is at least `next_sect` (then `n_section`
becomes that index and `next_sect` its successor, and a NAME header with a
second token records the problem name), and otherwise raises
`ValueError(f"Section ... out of order at line ...")`; every other line is
content of the current section. -/
def processLine (pyFloat : String → Option ℚ) (st : MpsState) (n_line : ℕ)
    (line : String) : Except MpsError MpsState :=
  match headerToken line with
  | some kw =>
    let idx := sections.indexOf kw
    if st.next_sect ≤ idx then
      let st' := { st with n_section := idx, next_sect := idx + 1 }
      if idx = 0 ∧ 1 < (pwords line).length then
        .ok { st' with prob_name := (pwords line).getD 1 "" }
      else .ok st'
    else .error (.outOfOrder kw n_line)
  | none =>
    if line = "" ∨ line.data.headD ' ' = '*' then .ok st
    else processContent pyFloat st n_line (pwords line)

/-- The line loop of `read_mps` followed by its final assertions: lines are
numbered from 1; on completion the reader asserts `n_section == 7` (`ENDATA`
declared) and `mps_sum` asserts `gf_seq != -1` (objective row defined) and
then computes the density `size / (n_rows * n_cols)`, which raises
`ZeroDivisionError` when the denominator is zero. -/
def readMpsLines (pyFloat : String → Option ℚ) :
    List String → ℕ → MpsState → Except MpsError MpsState
  | [], _, st =>
    if st.n_section ≠ 7 then .error (.noEndata st.n_section)
    else if st.gf_seq = -1 then .error .noObjective
    else if st.n_rows * st.n_cols = 0 then .error .zeroDensity
    else .ok st
  | l :: rest, n, st =>
    match processLine pyFloat st (n + 1) l with
    | .error e => .error e
    | .ok st' => readMpsLines pyFloat rest (n + 1) st'

/-- `read_mps` on the list of (newline-terminated) lines of the file: the
chunked byte reader reassembles exactly these lines via its carry-over
buffer.  (With a newline-terminated final line the source's special
final-buffer path is not taken.)  Quote preprocessing is applied to the file
before this loop and does not change its line structure. -/
def read_mps (pyFloat : String → Option ℚ) (lines : List String) :
    Except MpsError MpsState :=
  readMpsLines pyFloat lines 0 initState

/-- Whether a parse completed without a fatal error. -/
def isOkB : Except MpsError MpsState → Bool
  | .ok _ => true
  | .error _ => false

/-- A `float()` model accepting every token (with value 1), for concrete
parses whose numeric values are irrelevant. -/
def vpOne : String → Option ℚ := fun _ => some 1

end LPdiagFast

deriving instance DecidableEq for Except

namespace QuoteNorm

open MakeScaler (quoteChar)

/-- `splitAtQuote l` scans `l` for the next single quote and returns the
characters before it and the characters after it, or `none` when `l` contains
no quote: the search for the closing quote of the regex `'([^']*)'`. -/
def splitAtQuote : List Char → Option (List Char × List Char)
  | [] => none
  | c :: cs =>
    if c = quoteChar then some ([], cs)
    else (splitAtQuote cs).map fun p => (c :: p.1, p.2)

theorem splitAtQuote_some_length {l a b : List Char}
    (h : splitAtQuote l = some (a, b)) : b.length < l.length := by
  induction l generalizing a b with
  | nil => simp [splitAtQuote] at h
  | cons c cs ih =>
    by_cases hc : c = quoteChar
    · simp only [splitAtQuote, if_pos hc, Option.some.injEq, Prod.mk.injEq] at h
      rw [← h.2]
      simp
    · simp only [splitAtQuote, if_neg hc, Option.map_eq_some'] at h
      obtain ⟨⟨p, q⟩, hpq, heq⟩ := h
      have hqb : q = b := congrArg Prod.snd heq
      have hlt := ih (hqb ▸ hpq)
      simp only [List.length_cons]
      omega

/-- `re.sub(r"'([^']*)'", repl, text)` with a replacement that maps the inner
group through `f` and re-quotes it: scan left to right; at each single quote
with a matching closing quote, transform the span between them and continue
after the closing quote; a quote with no closing quote (and everything after
it) is left unchanged.  Both `replace_spaces_in_quotes` and
`return_spaces_in_quotes` are regex substitutions of this shape. -/
def subQuoted (f : List Char → List Char) : List Char → List Char
  | [] => []
  | c :: rest =>
    if c = quoteChar then
      match h : splitAtQuote rest with
      | some (inner, rest') =>
        quoteChar :: (f inner ++ quoteChar :: subQuoted f rest')
      | none => c :: rest
    else c :: subQuoted f rest
termination_by l => l.length
decreasing_by
  · exact Nat.lt_succ_of_lt (splitAtQuote_some_length h)
  · simp

/-- The inner replacement of the forward transform
`replace_spaces_in_quotes` (lp_diag_fast.py lines 106-108):
`inner_text.replace(" ", "___")` — every space becomes the three-character
placeholder `___`. -/
def replaceSpacesInner (l : List Char) : List Char :=
  l.flatMap fun c => if c = ' ' then ['_', '_', '_'] else [c]

/-- `s.replace(pat·pat·pat, repl)` for a three-character pattern of one
repeated character: scan left to right, replacing each non-overlapping
occurrence of the triple by the single replacement character. -/
def replaceTriple (pat repl : Char) : List Char → List Char
  | a :: b :: c :: rest =>
    if a = pat ∧ b = pat ∧ c = pat then repl :: replaceTriple pat repl rest
    else a :: replaceTriple pat repl (b :: c :: rest)
  | l => l

/-- The forward transform applied to a whole line: the file-preprocessing
pass `quoted_pattern.sub(replace_spaces_in_quotes, line)` (scaler.py lines
55-63, lp_diag_fast.py lines 104-117, parallel.py lines 47-56). -/
def replace_spaces_in_quotes (l : List Char) : List Char :=
  subQuoted replaceSpacesInner l

/-- Modelled from the spec: the inverse transform `return_spaces_in_quotes`
(defined in `tools/make_scaler/utils.py`, which is not part of the sources;
only its import sites and its unit test are).  Per the spec it replaces a
placeholder *distinct from the forward placeholder* back into spaces inside
quoted spans; the unit test `test_replace_and_return_spaces_in_quotes` pins
that placeholder as `---` (mapping `'foo---bar---baz'` to `'foo bar baz'`). -/
def return_spaces_in_quotes (l : List Char) : List Char :=
  subQuoted (replaceTriple '-' ' ') l

/-- The matched inverse of the forward transform: replace the forward
placeholder `___` itself back into spaces inside quoted spans.  This is not
the implemented inverse; it is the transform under which the round-trip law
of the amended claim holds. -/
def return_spaces_forward_placeholder (l : List Char) : List Char :=
  subQuoted (replaceTriple '_' ' ') l

end QuoteNorm

namespace LogDF

open scoped Classical

/-- `np.log10` on a nonnegative float argument, in the idealised real model
with an explicit bottom: `log10 0 = -inf` (the warning-and-`-inf` behaviour
the masking in `optimized_make_logdf` exists to avoid), and the real
`log10 x` for `x > 0`. -/
noncomputable def npLog10 (x : ℝ) : EReal :=
  if x = 0 then ⊥ else ((Real.logb 10 x : ℝ) : EReal)

/-- `optimized_make_logdf` (scaler_optim.py lines 17-23) on the `val` column:
`log_arr = np.zeros_like(arr)`, then `log_arr[mask] = np.log10(np.abs(arr[mask]))`
for `mask = arr != 0` — nonzero values get the log10 of their absolute value,
zero values keep the pre-filled exact `0`. -/
noncomputable def optimized_make_logdf (data : List ℝ) : List EReal :=
  data.map fun v => if v ≠ 0 then npLog10 |v| else 0

end LogDF

section Claims

open MakeScaler LPdiagFast QuoteNorm LogDF

/-- C9: Outlier selection marks an entry iff its magnitude is ≤ the lower
bound or ≥ the upper bound (both inclusive), and filtering any dataset with a
single integer bound `b` selects exactly the same entries as filtering with
the explicit pair `[-b, b]`. -/
theorem C9_outlier_filter_symmetry (data : List Entry) (b : ℤ)
    (bounds : Bounds) (e : Entry) :
    optimized_filter_df data (.int b) = optimized_filter_df data (.pair (-b) b)
      ∧ (e ∈ optimized_filter_df data bounds ↔ e ∈ data ∧
          (e.val ≤ ((boundsPair bounds).1 : ℚ) ∨
            ((boundsPair bounds).2 : ℚ) ≤ e.val)) := by
  constructor
  · rfl
  · simp [optimized_filter_df, List.mem_filter]

/-- C10: the magnitude transform maps every nonzero coefficient to the
base-10 logarithm of its absolute value and maps every zero-valued
coefficient to exactly 0 — never bottom (`np.log10`'s minus infinity) — for
all input tables. -/
theorem C10_logdf_zero_maps_to_zero (data : List ℝ) (i : ℕ)
    (h : i < data.length) :
    (optimized_make_logdf data).getD i ⊥ ≠ ⊥ ∧
      (data.getD i 1 = 0 → (optimized_make_logdf data).getD i ⊥ = 0) ∧
      (data.getD i 1 ≠ 0 → (optimized_make_logdf data).getD i ⊥ =
        ((Real.logb 10 |data.getD i 1| : ℝ) : EReal)) := by
  have hget : data.getD i 1 = data[i] := List.getD_eq_getElem data 1 h
  have hmap : (optimized_make_logdf data).getD i ⊥ =
      if data[i] ≠ 0 then npLog10 |data[i]| else 0 := by
    have hlen : i < (optimized_make_logdf data).length := by
      simpa [optimized_make_logdf] using h
    rw [List.getD_eq_getElem _ _ hlen]
    simp [optimized_make_logdf]
  by_cases hz : data[i] = 0
  · refine ⟨?_, fun _ => ?_, fun hne => absurd (hget ▸ hz) hne⟩
    · rw [hmap, if_neg (by simp [hz])]
      simp
    · rw [hmap, if_neg (by simp [hz])]
  · have habs : |data[i]| ≠ 0 := abs_ne_zero.mpr hz
    refine ⟨?_, fun h0 => absurd (hget ▸ h0) hz, fun _ => ?_⟩
    · rw [hmap, if_pos hz, npLog10, if_neg habs]
      simp
    · rw [hmap, if_pos hz, npLog10, if_neg habs, hget]

/-- Witness for C10 at the concrete table `[0, 10]`: index 0 holds a zero
coefficient (mapped to exactly 0, not bottom) and index 1 a nonzero one
(mapped to `log10 10`). -/
theorem C10_logdf_zero_maps_to_zero_witness :
    (optimized_make_logdf [(0 : ℝ), 10]).getD 0 ⊥ = 0 ∧
      (optimized_make_logdf [(0 : ℝ), 10]).getD 1 ⊥ =
        ((Real.logb 10 |(10 : ℝ)| : ℝ) : EReal) := by
  refine ⟨(C10_logdf_zero_maps_to_zero [(0 : ℝ), 10] 0 (by simp)).2.1 (by simp),
    ?_⟩
  have h := (C10_logdf_zero_maps_to_zero [(0 : ℝ), 10] 1 (by simp)).2.2
    (by norm_num)
  simpa using h

/-- C3: for every mode and file size the written statement file contains the
fixed control line `MESSAGE_LP.scaleopt=1;`, and every table a run returns
contains the control entry `MESSAGE_LP.scaleopt = 1`; but the claim's
"returns the finalized table for every valid problem file and every mode"
fails on the parallel fast-LP path: standard mode always returns the table,
while a parallel-mode (and hence also auto-mode) run on a file above 100 MB
skips the preprocessing branch and aborts with `UnboundLocalError` on
`preprocessing_time` (parallel.py line 339) after writing the file, never
returning. -/
theorem C3_control_statement_and_fastlp_crash (mode : ScalerMode)
    (fileSizeMB : ℚ) (render : ℚ → String)
    (rowScaler colScaler : List (String × ℚ)) :
    "MESSAGE_LP.scaleopt=1;" ∈
        (make_scaler_run mode fileSizeMB render rowScaler colScaler).1 ∧
      (∀ tbl, (make_scaler_run mode fileSizeMB render rowScaler colScaler).2 =
          .ok tbl → ("MESSAGE_LP.scaleopt", (1 : ℚ)) ∈ tbl) ∧
      (make_scaler_run .standard fileSizeMB render rowScaler colScaler).2 =
        .ok (scalerEntriesStandard rowScaler colScaler) ∧
      (make_scaler_run .parallel 200 render rowScaler colScaler).2 =
        .error (.unboundLocal "preprocessing_time") ∧
      (make_scaler_run .auto 200 render rowScaler colScaler).2 =
        .error (.unboundLocal "preprocessing_time") := by
  refine ⟨?_, ?_, rfl, ?_, ?_⟩
  · unfold make_scaler_run
    cases dispatchMode mode fileSizeMB <;>
      simp [make_scaler_standard_run, make_scaler_parallel_run, scalerLines]
  · intro tbl htbl
    unfold make_scaler_run at htbl
    cases h : dispatchMode mode fileSizeMB with
    | standard =>
      rw [h] at htbl
      simp only [make_scaler_standard_run, Except.ok.injEq] at htbl
      simp [← htbl, scalerEntriesStandard]
    | parallel =>
      rw [h] at htbl
      simp only [make_scaler_parallel_run] at htbl
      split at htbl
      · exact Except.noConfusion htbl
      · simp only [Except.ok.injEq] at htbl
        simp [← htbl, scalerEntriesParallel]
  · simp only [make_scaler_run, dispatchMode, make_scaler_parallel_run,
      useFastLP, HAS_FAST_LP, Bool.true_and]
    rw [if_pos (by norm_num)]
  · have h100 : ((100 : ℚ) < 200) := by norm_num
    simp only [make_scaler_run, dispatchMode, if_pos h100,
      make_scaler_parallel_run, useFastLP, HAS_FAST_LP, Bool.true_and]
    rw [if_pos (by norm_num)]

/-- Witness for C3 at mode `standard`, empty scaler tables: the run returns
a table containing the control entry and writes the control line. -/
theorem C3_control_statement_and_fastlp_crash_witness :
    ("MESSAGE_LP.scaleopt", (1 : ℚ)) ∈ scalerEntriesStandard [] [] ∧
      "MESSAGE_LP.scaleopt=1;" ∈
        (make_scaler_run .standard 0 (fun _ => "") [] []).1 :=
  ⟨(C3_control_statement_and_fastlp_crash .standard 0 (fun _ => "") []
      []).2.1 _ rfl,
    (C3_control_statement_and_fastlp_crash .standard 0 (fun _ => "") [] []).1⟩

theorem startsWithQuote_dropWhile {l : List Char}
    (h : startsWithQuote l = true) : l.dropWhile Char.isWhitespace = l := by
  cases l with
  | nil => simp [startsWithQuote] at h
  | cons c cs =>
    simp only [startsWithQuote, decide_eq_true_eq] at h
    rw [List.dropWhile_cons, if_neg]
    subst h
    decide

theorem pyStrip_of_quoted {l : List Char} (h1 : startsWithQuote l = true)
    (h2 : endsWithQuote l = true) : pyStrip l = l := by
  unfold pyStrip
  rw [startsWithQuote_dropWhile h1, startsWithQuote_dropWhile h2,
    List.reverse_reverse]

/-- C7: the Emitter's parameter-quoting rule is idempotent: a parameter token
that already starts and ends with a single quote is passed through
byte-identical, and an unquoted (whitespace-free) token receives exactly one
leading and one trailing single quote. -/
theorem C7_quoting_idempotent (p : List Char) :
    (startsWithQuote p = true → endsWithQuote p = true → quoteParam p = p) ∧
      (pyStrip p = p → (startsWithQuote p && endsWithQuote p) = false →
        quoteParam p = quoteChar :: (p ++ [quoteChar])) := by
  constructor
  · intro h1 h2
    have hs := pyStrip_of_quoted h1 h2
    simp only [quoteParam, hs, h1, h2, Bool.and_self, if_pos]
  · intro hs hb
    simp only [quoteParam, hs, hb, Bool.false_eq_true, if_false]

/-- Witness for C7: the already-quoted token `'a'` passes through unchanged;
the bare token `ab` gains exactly one leading and one trailing quote. -/
theorem C7_quoting_idempotent_witness :
    quoteParam (quoteChar :: 'a' :: [quoteChar]) =
        quoteChar :: 'a' :: [quoteChar] ∧
      quoteParam ['a', 'b'] = quoteChar :: (['a', 'b'] ++ [quoteChar]) :=
  ⟨(C7_quoting_idempotent _).1 (by decide) (by decide),
    (C7_quoting_idempotent _).2 (by decide) (by decide)⟩

theorem lookup_eq_one_of_mem {scaler : List (String × ℚ)} {lvl : String}
    {v : ℚ} (hnd : (scaler.map Prod.fst).Nodup)
    (hl : scaler.lookup lvl = some 1) (hmem : (lvl, v) ∈ scaler) : v = 1 := by
  induction scaler with
  | nil => simp at hmem
  | cons a t ih =>
    obtain ⟨k, w⟩ := a
    simp only [List.map_cons, List.nodup_cons] at hnd
    by_cases hk : lvl = k
    · subst hk
      simp only [List.lookup_cons_self, Option.some.injEq] at hl
      rcases List.mem_cons.mp hmem with heq | hmem2
      · rw [← hl]
        exact (Prod.mk.injEq .. ▸ heq).2
      · exact absurd (List.mem_map.mpr ⟨(lvl, v), hmem2, rfl⟩) hnd.1
    · have hbeq : (lvl == k) = false := beq_eq_false_iff_ne.mpr hk
      simp only [List.lookup_cons, hbeq] at hl
      rcases List.mem_cons.mp hmem with heq | hmem2
      · exact absurd (Prod.mk.injEq .. ▸ heq).1 hk
      · exact ih hnd.2 hl hmem2

/-- C8: an axis value whose cumulative scale factor is exactly 1 after all
iterations produces no emitted statement: its label never appears among the
source labels of the emitted entries, and deleting its scaler row changes
the emitted statement list not at all. -/
theorem C8_identity_factor_drop (scaler : List (String × ℚ)) (lvl : String)
    (hnd : (scaler.map Prod.fst).Nodup) (hl : scaler.lookup lvl = some 1) :
    lvl ∉ ((scaler.filter fun p => decide (p.2 ≠ 1)).map Prod.fst) ∧
      emitAxisEntries scaler =
        emitAxisEntries (scaler.eraseP fun p => decide (p.1 = lvl)) := by
  constructor
  · intro hmem
    obtain ⟨⟨l2, v⟩, hmem2, hfst⟩ := List.mem_map.mp hmem
    obtain ⟨hin, hv⟩ := List.mem_filter.mp hmem2
    simp only [decide_eq_true_eq] at hv
    exact hv (lookup_eq_one_of_mem hnd hl (hfst ▸ hin))
  · induction scaler with
    | nil => rfl
    | cons a t ih =>
      obtain ⟨k, w⟩ := a
      simp only [List.map_cons, List.nodup_cons] at hnd
      by_cases hk : k = lvl
      · subst hk
        simp only [List.lookup_cons_self, Option.some.injEq] at hl
        subst hl
        simp [emitAxisEntries, List.eraseP_cons, List.filter_cons]
      · have hbeq : (lvl == k) = false := beq_eq_false_iff_ne.mpr
          fun h => hk h.symm
        simp only [List.lookup_cons, hbeq] at hl
        have ihr := ih hnd.2 hl
        simp only [emitAxisEntries, List.eraseP_cons, decide_eq_false hk,
          cond_false, List.filter_cons] at ihr ⊢
        split
        · simpa using ihr
        · exact ihr

/-- Witness for C8 at the table `[("a", 1), ("b", 2)]`: the label `a` with
cumulative factor exactly 1 contributes no emitted statement. -/
theorem C8_identity_factor_drop_witness :
    "a" ∉ (([("a", (1 : ℚ)), ("b", 2)].filter fun p =>
        decide (p.2 ≠ 1)).map Prod.fst) ∧
      emitAxisEntries [("a", (1 : ℚ)), ("b", 2)] =
        emitAxisEntries ([("a", (1 : ℚ)), ("b", 2)].eraseP fun p =>
          decide (p.1 = "a")) :=
  C8_identity_factor_drop [("a", (1 : ℚ)), ("b", 2)] "a" (by simp)
    (by simp [List.lookup])

theorem subQuoted_of_not_mem {f : List Char → List Char} {l : List Char}
    (h : quoteChar ∉ l) : subQuoted f l = l := by
  induction l with
  | nil => simp [subQuoted]
  | cons c cs ih =>
    have hc : ¬(c = quoteChar) := fun hcq => h (hcq ▸ List.mem_cons_self c cs)
    rw [subQuoted, if_neg hc, ih fun hm => h (List.mem_cons_of_mem c hm)]

theorem splitAtQuote_append {pre post : List Char} (h : quoteChar ∉ pre) :
    splitAtQuote (pre ++ quoteChar :: post) = some (pre, post) := by
  induction pre with
  | nil => simp [splitAtQuote]
  | cons c cs ih =>
    have hc : ¬(c = quoteChar) := fun hcq => h (hcq ▸ List.mem_cons_self c cs)
    rw [List.cons_append, splitAtQuote, if_neg hc,
      ih fun hm => h (List.mem_cons_of_mem c hm)]
    rfl

theorem subQuoted_quoted {f : List Char → List Char} {pre inner post : List Char}
    (hp : quoteChar ∉ pre) (hi : quoteChar ∉ inner) :
    subQuoted f (pre ++ quoteChar :: (inner ++ quoteChar :: post)) =
      pre ++ quoteChar :: (f inner ++ quoteChar :: subQuoted f post) := by
  induction pre with
  | nil =>
    simp only [List.nil_append]
    rw [subQuoted, splitAtQuote_append hi]
    simp
  | cons c cs ih =>
    have hc : ¬(c = quoteChar) := fun hcq => hp (hcq ▸ List.mem_cons_self c cs)
    rw [List.cons_append, subQuoted, if_neg hc,
      ih fun hm => hp (List.mem_cons_of_mem c hm), List.cons_append]

theorem replaceTriple_cons_ne {pat repl c : Char} {l : List Char}
    (hc : c ≠ pat) :
    replaceTriple pat repl (c :: l) = c :: replaceTriple pat repl l := by
  match l with
  | [] => rfl
  | [b] => rfl
  | b :: c2 :: rest =>
    rw [replaceTriple, if_neg fun hand => hc hand.1]

theorem replaceTriple_of_not_mem {pat repl : Char} {l : List Char}
    (h : pat ∉ l) : replaceTriple pat repl l = l := by
  induction l with
  | nil => rfl
  | cons c cs ih =>
    have hc : c ≠ pat := fun hcq => h (hcq ▸ List.mem_cons_self c cs)
    rw [replaceTriple_cons_ne hc, ih fun hm => h (List.mem_cons_of_mem c hm)]

theorem replaceTriple_underscore_replaceSpaces {l : List Char}
    (h : '_' ∉ l) : replaceTriple '_' ' ' (replaceSpacesInner l) = l := by
  induction l with
  | nil => simp [replaceSpacesInner, replaceTriple]
  | cons c cs ih =>
    have htail : '_' ∉ cs := fun hm => h (List.mem_cons_of_mem c hm)
    by_cases hsp : c = ' '
    · subst hsp
      have hexp : replaceSpacesInner (' ' :: cs) =
          '_' :: '_' :: '_' :: replaceSpacesInner cs := by
        simp [replaceSpacesInner]
      rw [hexp, replaceTriple, if_pos ⟨rfl, rfl, rfl⟩, ih htail]
    · have hcu : c ≠ '_' := fun hcq => h (hcq ▸ List.mem_cons_self c cs)
      have hexp : replaceSpacesInner (c :: cs) = c :: replaceSpacesInner cs := by
        simp [replaceSpacesInner, hsp]
      rw [hexp, replaceTriple_cons_ne hcu, ih htail]

theorem not_mem_replaceSpacesInner {l : List Char} (h : quoteChar ∉ l) :
    quoteChar ∉ replaceSpacesInner l := by
  intro hm
  simp only [replaceSpacesInner, List.mem_flatMap] at hm
  obtain ⟨c, hcl, hcm⟩ := hm
  by_cases hsp : c = ' '
  · rw [if_pos hsp] at hcm
    have : quoteChar = '_' := by simpa using hcm
    exact absurd this (by decide)
  · rw [if_neg hsp] at hcm
    have : quoteChar = c := by simpa using hcm
    exact h (this ▸ hcl)

/-- C2 counterexample: for the string `'a b'` (a single-quoted phrase with a
space), forward-transforming with `replace_spaces_in_quotes` and then
inverse-transforming with `return_spaces_in_quotes` does *not* reproduce the
original phrase: the forward placeholder is `___` while the implemented
inverse only replaces the distinct placeholder `---`, so the result keeps
`a___b`. -/
theorem C2_roundtrip_counterexample :
    return_spaces_in_quotes (replace_spaces_in_quotes
        (quoteChar :: 'a' :: ' ' :: 'b' :: [quoteChar])) ≠
      quoteChar :: 'a' :: ' ' :: 'b' :: [quoteChar] := by
  have hfwd := @subQuoted_quoted replaceSpacesInner [] ['a', ' ', 'b'] []
    (by decide) (by decide)
  have hinner : replaceSpacesInner ['a', ' ', 'b'] = ['a', '_', '_', '_', 'b'] := by
    simp [replaceSpacesInner]
  have hinv := @subQuoted_quoted (replaceTriple '-' ' ') []
    ['a', '_', '_', '_', 'b'] [] (by decide) (by decide)
  have hid : replaceTriple '-' ' ' ['a', '_', '_', '_', 'b'] =
      ['a', '_', '_', '_', 'b'] := replaceTriple_of_not_mem (by decide)
  have hemp : subQuoted (replaceTriple '-' ' ') ([] : List Char) = [] :=
    subQuoted_of_not_mem (by decide)
  have hemp2 : subQuoted replaceSpacesInner ([] : List Char) = [] :=
    subQuoted_of_not_mem (by decide)
  rw [replace_spaces_in_quotes, return_spaces_in_quotes]
  simp only [List.nil_append, List.cons_append, List.append_nil] at hfwd hinv ⊢
  rw [hfwd, hinner, hemp2]
  simp only [List.cons_append, List.nil_append, List.append_nil]
  rw [hinv, hid, hemp]
  decide

/-- C2 (amended): the inverse transform implemented by the code targets the
placeholder `---`, distinct from the forward placeholder `___`, so the
forward-then-inverse round trip does not restore spaces; the round-trip law
holds for the matched inverse that replaces the *forward* placeholder `___`
back into spaces: for any string with one single-quoted phrase (quote-free
prefix, phrase and suffix) whose phrase contains no underscore, forward
transform followed by the `___`-inverse reproduces the original string
exactly. -/
theorem C2_roundtrip_amended (pre inner post : List Char)
    (hp : quoteChar ∉ pre) (hi : quoteChar ∉ inner) (hpost : quoteChar ∉ post)
    (hu : '_' ∉ inner) :
    return_spaces_forward_placeholder (replace_spaces_in_quotes
        (pre ++ quoteChar :: (inner ++ quoteChar :: post))) =
      pre ++ quoteChar :: (inner ++ quoteChar :: post) := by
  rw [replace_spaces_in_quotes, subQuoted_quoted hp hi,
    subQuoted_of_not_mem hpost, return_spaces_forward_placeholder,
    subQuoted_quoted hp (not_mem_replaceSpacesInner hi),
    subQuoted_of_not_mem hpost, replaceTriple_underscore_replaceSpaces hu]

/-- Witness for the amended C2 at the concrete string `A 'a b' z`. -/
theorem C2_roundtrip_amended_witness :
    return_spaces_forward_placeholder (replace_spaces_in_quotes
        (['A', ' '] ++ quoteChar :: (['a', ' ', 'b'] ++ quoteChar :: ['z']))) =
      ['A', ' '] ++ quoteChar :: (['a', ' ', 'b'] ++ quoteChar :: ['z']) :=
  C2_roundtrip_amended ['A', ' '] ['a', ' ', 'b'] ['z'] (by decide) (by decide)
    (by decide) (by decide)

theorem processRows_section_invariant (st : MpsState) (words : List String) :
    (processRows st words).n_section = st.n_section ∧
      (processRows st words).next_sect = st.next_sect := by
  unfold processRows
  split <;> exact ⟨rfl, rfl⟩

theorem addPair_section_invariant {vp : String → Option ℚ} {st : MpsState}
    {n : ℕ} {r v : String} {c : ℕ} {st' : MpsState}
    (h : addPair vp st n r v c = .ok st') :
    st'.n_section = st.n_section ∧ st'.next_sect = st.next_sect := by
  unfold addPair at h
  split at h
  · exact Except.noConfusion h
  · split at h
    · exact Except.noConfusion h
    · cases h; exact ⟨rfl, rfl⟩

theorem registerCol_section_invariant (st : MpsState) (c : String) :
    (registerCol st c).1.n_section = st.n_section ∧
      (registerCol st c).1.next_sect = st.next_sect := by
  unfold registerCol
  split <;> exact ⟨rfl, rfl⟩

theorem processColumns_section_invariant {vp : String → Option ℚ}
    {st : MpsState} {n : ℕ} {words : List String} {st' : MpsState}
    (h : processColumns vp st n words = .ok st') :
    st'.n_section = st.n_section ∧ st'.next_sect = st.next_sect := by
  unfold processColumns at h
  split at h
  · cases h; exact ⟨rfl, rfl⟩
  · split at h
    · exact Except.noConfusion h
    · rename_i st2 hpair
      have h1 := addPair_section_invariant hpair
      have h0 := registerCol_section_invariant st (words.getD 0 "")
      split at h
      · have h2 := addPair_section_invariant h
        exact ⟨h2.1.trans (h1.1.trans h0.1), h2.2.trans (h1.2.trans h0.2)⟩
      · cases h
        exact ⟨h1.1.trans h0.1, h1.2.trans h0.2⟩

theorem processContent_section_invariant {vp : String → Option ℚ}
    {st : MpsState} {n : ℕ} {words : List String} {st' : MpsState}
    (h : processContent vp st n words = .ok st') :
    st'.n_section = st.n_section ∧ st'.next_sect = st.next_sect := by
  unfold processContent at h
  split at h
  · cases h; exact processRows_section_invariant st words
  · exact processColumns_section_invariant h
  · cases h; exact ⟨rfl, rfl⟩

/-- C4 (amended): a line is treated as a section header iff it is non-empty,
not a comment, its first character is not a space and its first token is a
known section keyword; such a header is accepted iff its canonical index is
at least `next_sect` (which is `current + 1` once a section has been
entered), so a header whose index is *less than or equal to* the current
section's index is a fatal out-of-order error citing the offending line,
while only a strictly greater index is accepted; non-header lines never
change the section state; and a file presenting COLUMNS before ROWS fails
with the out-of-order error citing the ROWS line. -/
theorem C4_section_order_amended (vp : String → Option ℚ) (st : MpsState)
    (n : ℕ) (line : String) :
    (∀ kw, headerToken line = some kw →
      (sections.indexOf kw < st.next_sect →
        processLine vp st n line = .error (.outOfOrder kw n)) ∧
      (st.next_sect ≤ sections.indexOf kw → ∃ st',
        processLine vp st n line = .ok st' ∧
        st'.n_section = sections.indexOf kw ∧
        st'.next_sect = sections.indexOf kw + 1)) ∧
    (headerToken line = none → ∀ st',
      processLine vp st n line = .ok st' →
      st'.n_section = st.n_section ∧ st'.next_sect = st.next_sect) ∧
    read_mps vpOne ["COLUMNS", "ROWS"] = .error (.outOfOrder "ROWS" 2) := by
  refine ⟨fun kw hkw => ⟨fun hlt => ?_, fun hle => ?_⟩,
    fun hnone st' hok => ?_, by decide⟩
  · simp only [processLine, hkw]
    rw [if_neg (by omega)]
  · simp only [processLine, hkw]
    rw [if_pos hle]
    split
    · exact ⟨_, rfl, rfl, rfl⟩
    · exact ⟨_, rfl, rfl, rfl⟩
  · simp only [processLine, hnone] at hok
    split at hok
    · cases hok; exact ⟨rfl, rfl⟩
    · exact processContent_section_invariant hok

/-- Witness for the amended C4: a repeated `ROWS` header against a parser
state already past it is rejected with the out-of-order error, while the
first `ROWS` header from the initial state is accepted and advances the
section counters. -/
theorem C4_section_order_amended_witness :
    processLine vpOne { initState with n_section := 2, next_sect := 3 } 5
        "ROWS" = .error (.outOfOrder "ROWS" 5) ∧
      ∃ st', processLine vpOne initState 5 "ROWS" = .ok st' ∧
        st'.n_section = sections.indexOf "ROWS" ∧
        st'.next_sect = sections.indexOf "ROWS" + 1 :=
  ⟨((C4_section_order_amended vpOne _ 5 "ROWS").1 "ROWS" (by decide)).1
      (by decide),
    ((C4_section_order_amended vpOne initState 5 "ROWS").1 "ROWS"
      (by decide)).2 (by decide)⟩

/-- C4 counterexample: the claim says a header whose canonical index equals
the current section index is accepted; but after one `ROWS` header (current
section index 1 = index of `ROWS`) a second `ROWS` header is rejected as
out-of-order at line 2. -/
theorem C4_section_order_counterexample :
    (processLine vpOne initState 1 "ROWS").map (fun s => s.n_section) =
        .ok (sections.indexOf "ROWS") ∧
      read_mps vpOne ["ROWS", "ROWS"] = .error (.outOfOrder "ROWS" 2) := by
  decide

/-- C5: the code's final assertions enforce only the end marker (`ENDATA`)
and the objective row — a file with no NAME section (and hence missing one of
the four documented mandatory sections) parses successfully, contradicting
the claim and the parser's own `required_sections = {NAME, ROWS, COLUMNS,
ENDATA}` comment (the computed set is never used); files missing the end
marker or an objective row are rejected as claimed. -/
theorem C5_mandatory_sections :
    isOkB (read_mps vpOne
        ["ROWS", " N obj", "COLUMNS", " x obj 1", "ENDATA"]) = true ∧
      read_mps vpOne ["NAME test", "ROWS", " N obj", "COLUMNS", " x obj 1"] =
        .error (.noEndata 2) ∧
      read_mps vpOne
          ["NAME test", "ROWS", " L c1", "COLUMNS", " x c1 1", "ENDATA"] =
        .error .noObjective := by
  decide

theorem registerCol_row_name (st : MpsState) (c : String) :
    (registerCol st c).1.row_name = st.row_name := by
  unfold registerCol
  split <;> rfl

theorem addPair_unknown (vp : String → Option ℚ) (st : MpsState) (n : ℕ)
    (rnm vtok : String) (c : ℕ) (h : st.row_name.lookup rnm = none) :
    addPair vp st n rnm vtok c = .error (.unknownRow rnm n) := by
  unfold addPair
  rw [h]

theorem addPair_invalid (vp : String → Option ℚ) (st : MpsState) (n : ℕ)
    (rnm vtok : String) (c : ℕ) {rs : ℕ}
    (h1 : st.row_name.lookup rnm = some rs) (h2 : vp vtok = none) :
    addPair vp st n rnm vtok c = .error (.invalidNumber vtok n) := by
  unfold addPair
  rw [h1, h2]

theorem addPair_ok (vp : String → Option ℚ) (st : MpsState) (n : ℕ)
    (rnm vtok : String) (c : ℕ) {rs : ℕ} {val : ℚ}
    (h1 : st.row_name.lookup rnm = some rs) (h2 : vp vtok = some val) :
    addPair vp st n rnm vtok c = .ok { st with mat := st.mat ++ [(rs, c, val)] } := by
  unfold addPair
  rw [h1, h2]

/-- C6: on a COLUMNS content line bearing `(row, value)` pairs, an unknown
row name in either consumed pair — the first (tokens 1-2) or, on a line of at
least five tokens, the second (tokens 3-4) — is a fatal error citing the
line number (never a silent skip), and a non-numeric value token in either
pair is likewise fatal; end-to-end, files whose COLUMNS line carries an
undeclared row or a non-numeric value in the first or the second pair all
fail with the corresponding error at that line. -/
theorem C6_unknown_row_fatal (vp : String → Option ℚ) (st : MpsState) (n : ℕ)
    (words : List String) (h3 : 3 ≤ words.length) :
    (st.row_name.lookup (words.getD 1 "") = none →
      processColumns vp st n words =
        .error (.unknownRow (words.getD 1 "") n)) ∧
      (∀ r, st.row_name.lookup (words.getD 1 "") = some r →
        vp (words.getD 2 "") = none →
        processColumns vp st n words =
          .error (.invalidNumber (words.getD 2 "") n)) ∧
      (∀ r v, 5 ≤ words.length →
        st.row_name.lookup (words.getD 1 "") = some r →
        vp (words.getD 2 "") = some v →
        st.row_name.lookup (words.getD 3 "") = none →
        processColumns vp st n words =
          .error (.unknownRow (words.getD 3 "") n)) ∧
      (∀ r v r2, 5 ≤ words.length →
        st.row_name.lookup (words.getD 1 "") = some r →
        vp (words.getD 2 "") = some v →
        st.row_name.lookup (words.getD 3 "") = some r2 →
        vp (words.getD 4 "") = none →
        processColumns vp st n words =
          .error (.invalidNumber (words.getD 4 "") n)) ∧
      read_mps vpOne ["ROWS", " N obj", "COLUMNS", " x zzz 1", "ENDATA"] =
        .error (.unknownRow "zzz" 4) ∧
      read_mps (fun s => if s = "1" then some 1 else none)
          ["ROWS", " N obj", "COLUMNS", " x obj abc", "ENDATA"] =
        .error (.invalidNumber "abc" 4) ∧
      read_mps vpOne
          ["ROWS", " N obj", "COLUMNS", " x obj 1 zzz 2", "ENDATA"] =
        .error (.unknownRow "zzz" 4) ∧
      read_mps (fun s => if s = "abc" then none else some 1)
          ["ROWS", " N obj", "COLUMNS", " x obj 1 obj abc", "ENDATA"] =
        .error (.invalidNumber "abc" 4) := by
  refine ⟨fun hlk => ?_, fun r hlk hvp => ?_,
    fun r v h5 hlk1 hvp1 hlk2 => ?_, fun r v r2 h5 hlk1 hvp1 hlk2 hvp2 => ?_,
    by decide, by decide, by decide, by decide⟩
  · have hlk' : (registerCol st (words.getD 0 "")).1.row_name.lookup
        (words.getD 1 "") = none := by
      rw [registerCol_row_name]; exact hlk
    simp only [processColumns, if_neg (by omega : ¬words.length < 3),
      addPair_unknown vp _ n (words.getD 1 "") (words.getD 2 "")
        (registerCol st (words.getD 0 "")).2 hlk']
  · have hlk' : (registerCol st (words.getD 0 "")).1.row_name.lookup
        (words.getD 1 "") = some r := by
      rw [registerCol_row_name]; exact hlk
    simp only [processColumns, if_neg (by omega : ¬words.length < 3),
      addPair_invalid vp _ n (words.getD 1 "") (words.getD 2 "")
        (registerCol st (words.getD 0 "")).2 hlk' hvp]
  · have hlk1' : (registerCol st (words.getD 0 "")).1.row_name.lookup
        (words.getD 1 "") = some r := by
      rw [registerCol_row_name]; exact hlk1
    have hpair1 := addPair_ok vp (registerCol st (words.getD 0 "")).1 n
      (words.getD 1 "") (words.getD 2 "")
      (registerCol st (words.getD 0 "")).2 hlk1' hvp1
    have hlk2' : ({ (registerCol st (words.getD 0 "")).1 with
        mat := (registerCol st (words.getD 0 "")).1.mat ++
          [(r, (registerCol st (words.getD 0 "")).2, v)] } :
        MpsState).row_name.lookup (words.getD 3 "") = none := by
      show (registerCol st (words.getD 0 "")).1.row_name.lookup
        (words.getD 3 "") = none
      rw [registerCol_row_name]; exact hlk2
    have hpair2 := addPair_unknown vp _ n (words.getD 3 "") (words.getD 4 "")
      (registerCol st (words.getD 0 "")).2 hlk2'
    simp only [processColumns, if_neg (by omega : ¬words.length < 3), hpair1,
      if_pos h5, hpair2]
  · have hlk1' : (registerCol st (words.getD 0 "")).1.row_name.lookup
        (words.getD 1 "") = some r := by
      rw [registerCol_row_name]; exact hlk1
    have hpair1 := addPair_ok vp (registerCol st (words.getD 0 "")).1 n
      (words.getD 1 "") (words.getD 2 "")
      (registerCol st (words.getD 0 "")).2 hlk1' hvp1
    have hlk2' : ({ (registerCol st (words.getD 0 "")).1 with
        mat := (registerCol st (words.getD 0 "")).1.mat ++
          [(r, (registerCol st (words.getD 0 "")).2, v)] } :
        MpsState).row_name.lookup (words.getD 3 "") = some r2 := by
      show (registerCol st (words.getD 0 "")).1.row_name.lookup
        (words.getD 3 "") = some r2
      rw [registerCol_row_name]; exact hlk2
    have hpair2 := addPair_invalid vp _ n (words.getD 3 "") (words.getD 4 "")
      (registerCol st (words.getD 0 "")).2 hlk2' hvp2
    simp only [processColumns, if_neg (by omega : ¬words.length < 3), hpair1,
      if_pos h5, hpair2]

/-- Witness for C6: on the COLUMNS line `x r 1` against a state with no
declared rows, the parse step fails with the unknown-row error citing the
line number; and on the five-token line `x obj 1 zzz 2` against a state
declaring only row `obj`, the undeclared row `zzz` of the second pair is
likewise fatal at the given line. -/
theorem C6_unknown_row_fatal_witness :
    processColumns vpOne initState 7 ["x", "r", "1"] =
        .error (.unknownRow "r" 7) ∧
      processColumns vpOne { initState with row_name := [("obj", 0)] } 9
          ["x", "obj", "1", "zzz", "2"] = .error (.unknownRow "zzz" 9) :=
  ⟨(C6_unknown_row_fatal vpOne initState 7 ["x", "r", "1"] (by decide)).1 rfl,
    (C6_unknown_row_fatal vpOne { initState with row_name := [("obj", 0)] } 9
        ["x", "obj", "1", "zzz", "2"] (by decide)).2.2.1 0 1 (by decide)
      (by decide) rfl (by decide)⟩

theorem lookupD_map_one (xs : List String) (k : String) :
    lookupD (xs.map fun l => (l, (1 : ℚ))) k = 1 := by
  induction xs with
  | nil => rfl
  | cons a t ih =>
    simp only [List.map_cons, lookupD, List.lookup_cons]
    split
    · rfl
    · simpa [lookupD] using ih

theorem applyStep_ones (m : List Entry) (s : Axis) (xs : List String) :
    applyStep m s (xs.map fun l => (l, (1 : ℚ))) = m := by
  cases s <;> simp [applyStep, lookupD_map_one]

theorem cex_levelsSolv_row : levelsSolv cexMatrix .row (.int 2) = ["r1"] := by
  norm_num [cexMatrix, levelsSolv, isOutlier, magKey, boundsPair, objectiveIx,
    Entry.label, List.filter]
  decide

theorem cex_levelsSolv_col : levelsSolv cexMatrix .col (.int 2) = ["c"] := by
  norm_num [cexMatrix, levelsSolv, isOutlier, magKey, boundsPair, objectiveIx,
    Entry.label, List.filter]
  decide

theorem cex_levelsSolv_col_scaled :
    levelsSolv cexMatrixRowScaled .col (.int 2) = [] := by
  norm_num [cexMatrixRowScaled, levelsSolv, isOutlier, magKey, boundsPair,
    objectiveIx, Entry.label, List.filter]

theorem cex_stepScaler_row :
    stepScalerList cexMatrix .row (.int 2) = [("r1", 10000), ("r2", 1)] := by
  have hmid : midExp cexMatrix .row "r1" = 4 := by decide
  have hret : returnIndex cexMatrix .row = ["r1", "r2"] := by decide
  rw [stepScalerList, hret, cex_levelsSolv_row]
  simp [hmid, axisExp]
  norm_num

theorem cex_stepScaler_col_scaled :
    stepScalerList cexMatrixRowScaled .col (.int 2) = [("c", 1)] := by
  have hret : returnIndex cexMatrixRowScaled .col = ["c"] := by decide
  rw [stepScalerList, hret, cex_levelsSolv_col_scaled]
  simp

theorem cex_stepScaler_col :
    stepScalerList cexMatrix .col (.int 2) = [("c", (10 : ℚ) ^ (-2 : ℤ))] := by
  have hmid : midExp cexMatrix .col "c" = 2 := by decide
  have hret : returnIndex cexMatrix .col = ["c"] := by decide
  rw [stepScalerList, hret, cex_levelsSolv_col]
  simp [hmid, axisExp]

theorem cex_applyStep_row :
    applyStep cexMatrix .row [("r1", 10000), ("r2", 1)] =
      cexMatrixRowScaled := by
  simp [cexMatrix, cexMatrixRowScaled, applyStep, lookupD, List.lookup,
    Entry.label]

theorem cex_applyStep_col_scaled :
    applyStep cexMatrixRowScaled .col [("c", 1)] = cexMatrixRowScaled := by
  simp [cexMatrixRowScaled, applyStep, lookupD, List.lookup, Entry.label]

theorem cex_applyStep_col :
    applyStep cexMatrix .col [("c", (10 : ℚ) ^ (-2 : ℤ))] =
      [⟨"r1", "c", 100⟩, ⟨"r2", "c", (10 : ℚ) ^ (-2 : ℤ)⟩] := by
  simp [cexMatrix, applyStep, lookupD, List.lookup, Entry.label]
  norm_num

theorem cex_seq_eval : seqScalingIteration ⟨cexMatrix, [], []⟩ (.int 2) 0 =
    ⟨cexMatrixRowScaled, [("r1", 10000), ("r2", 1)], [("c", 1)]⟩ := by
  simp only [seqScalingIteration, processScalingStep, cex_stepScaler_row,
    cex_applyStep_row, cex_stepScaler_col_scaled, cex_applyStep_col_scaled,
    cumScaler, if_pos rfl, if_true]

theorem cex_par_eval :
    parallelScalingOperations ⟨cexMatrix, [], []⟩ (.int 2) 0 =
    ⟨[⟨"r1", "c", 100⟩, ⟨"r2", "c", (10 : ℚ) ^ (-2 : ℤ)⟩],
      [("r1", 10000), ("r2", 1)], [("c", (10 : ℚ) ^ (-2 : ℤ))]⟩ := by
  simp only [parallelScalingOperations, processScalingStep,
    cex_stepScaler_row, cex_stepScaler_col, cex_applyStep_col, cumScaler,
    if_pos rfl, if_true]

end Claims
